import Mathlib

/-
Verification development for the presidio anonymizer core.

The repository ships two Python sources:
  * presidio_anonymizer/operators/decrypt.py        (the Decrypt operator)
  * tests/test_anonymizer_engine.py                 (the engine test-suite)
The engine itself (span reconciliation, operator dispatch, text rewriting,
AES cipher, operator catalog) is not part of the shipped sources; those
parts are modelled from the specification, amended only where the
test-suite of the repository pins down different concrete behaviour.
Scores, which are Python floats in the source, are modelled as rationals:
they are only ever compared, never combined arithmetically.
-/

set_option maxRecDepth 4000

/-- A detected sensitive-entity span: modelled from the data model used by
tests/test_anonymizer_engine.py (RecognizerResult with fields
entity_type, start, end, score); the field named end in Python is
named stop here because end is a Lean keyword. -/
structure Span where
  start : Nat
  stop : Nat
  entityType : String
  score : ℚ
deriving DecidableEq

/-- Equality of index ranges, as in the equal-indices test of the reconciler:
both endpoints coincide. -/
def equalIndices (a b : Span) : Bool :=
  decide (a.start = b.start ∧ a.stop = b.stop)

/-- Range containment: containedIn a b holds when the range of a lies
fully inside the range of b. -/
def containedIn (a b : Span) : Bool :=
  decide (b.start ≤ a.start ∧ a.stop ≤ b.stop)

/-- Modelled from the spec: the pairwise conflict test of the reconciler
(spec section 4.1), amended to match the test-suite of the repository
(tests/test_anonymizer_engine.py lines 122-167).  Step 2 of the spec says
the lower-score element of every containment pair is discarded; the test
shows that a span strictly contained in another is discarded regardless
of score (FIRST_NAME at range 24-28 with score 0.9 does not survive its
container BLA at range 18-32 with score 0.8), and score decides survival
only between spans with identical ranges.  hasConflict a b means that a
is the element discarded in favour of b. -/
def hasConflict (a b : Span) : Bool :=
  if equalIndices a b then decide (a.score ≤ b.score)
  else containedIn a b

/-- r survives a check against every element of l. -/
def noConflictWith (r : Span) (l : List Span) : Bool :=
  l.all (fun o => !hasConflict r o)

/-- Modelled from the spec: the reconciliation sweep (spec section 4.1,
steps 2-3).  Each pending span is checked against all later pending spans
and all spans kept so far; it survives only if it conflicts with none of
them.  kept accumulates the survivors. -/
def removeConflictsAux : List Span → List Span → List Span
  | [], _ => []
  | r :: rest, kept =>
    if noConflictWith r (rest ++ kept) then
      r :: removeConflictsAux rest (kept ++ [r])
    else
      removeConflictsAux rest kept

/-- Modelled from the spec: the ordering of the reconciler (spec section 4.1
step 1): ascending start, ties broken by descending score, then by
descending span length. -/
def spanLe (a b : Span) : Bool :=
  if a.start ≠ b.start then decide (a.start < b.start)
  else if a.score ≠ b.score then decide (b.score < a.score)
  else decide (b.stop - b.start ≤ a.stop - a.start)

/-- Insertion step of the sort of the reconciler. -/
def insertSpan (a : Span) : List Span → List Span
  | [] => [a]
  | b :: l => if spanLe a b then a :: b :: l else b :: insertSpan a l

/-- Insertion sort by spanLe. -/
def sortSpans (l : List Span) : List Span :=
  l.foldr insertSpan []

/-- Modelled from the spec: full span reconciliation (spec section 4.1):
sort, then sweep out conflicting spans. -/
def reconcile (l : List Span) : List Span :=
  removeConflictsAux (sortSpans l) []

/-- The rational 0.55, given as a reduced fraction so that it evaluates
inside the kernel. -/
def score55 : ℚ := ⟨11, 20, by norm_num, by norm_num⟩

/-- The rational 0.6 as a reduced fraction. -/
def score60 : ℚ := ⟨3, 5, by norm_num, by norm_num⟩

/-- The rational 0.8 as a reduced fraction. -/
def score80 : ℚ := ⟨4, 5, by norm_num, by norm_num⟩

/-- The rational 0.9 as a reduced fraction. -/
def score90 : ℚ := ⟨9, 10, by norm_num, by norm_num⟩

/-- The rational 0.95 as a reduced fraction. -/
def score95 : ℚ := ⟨19, 20, by norm_num, by norm_num⟩

/-- The rational 0.5 as a reduced fraction. -/
def score50 : ℚ := ⟨1, 2, by norm_num, by norm_num⟩

/-- The rational 0 as a reduced fraction. -/
def score0 : ℚ := ⟨0, 1, by norm_num, by norm_num⟩

/-- The metadata projection the engine hands to the text manipulator,
as asserted by MockTextManipulator.operate in the test-suite. -/
structure TextMetadata where
  start : Nat
  stop : Nat
  entityType : String
deriving DecidableEq

/-- Projection of a span to its text metadata. -/
def toMetadata (s : Span) : TextMetadata :=
  ⟨s.start, s.stop, s.entityType⟩

/-- The nine analyzer results of the reconciliation test
(tests/test_anonymizer_engine.py lines 123-133). -/
def testResults : List Span :=
  [⟨48, 57, "SSN", score55⟩,
   ⟨24, 32, "FULL_NAME", score60⟩,
   ⟨24, 28, "FIRST_NAME", score90⟩,
   ⟨29, 32, "LAST_NAME", score60⟩,
   ⟨24, 30, "NAME", score80⟩,
   ⟨18, 32, "BLA", score80⟩,
   ⟨23, 35, "BLA", score80⟩,
   ⟨28, 36, "BLA", score80⟩,
   ⟨48, 57, "PHONE_NUMBER", score95⟩]

/-- The four survivors the test-suite asserts the engine passes on
(tests/test_anonymizer_engine.py lines 158-163). -/
def expectedTestMetadata : List TextMetadata :=
  [⟨48, 57, "PHONE_NUMBER"⟩,
   ⟨18, 32, "BLA"⟩,
   ⟨23, 35, "BLA"⟩,
   ⟨28, 36, "BLA"⟩]

/-- The FIRST_NAME candidate of the reconciliation test. -/
def firstNameSpan : Span := ⟨24, 28, "FIRST_NAME", score90⟩

/-- The containing BLA candidate of the reconciliation test. -/
def blaContainerSpan : Span := ⟨18, 32, "BLA", score80⟩

/-- Dynamically-typed Python parameter values, as they appear in operator
parameter dictionaries. -/
inductive PyVal where
  | str : String → PyVal
  | int : Int → PyVal
  | bool : Bool → PyVal
deriving DecidableEq

/-- An operator configuration: the AnonymizerConfig of the test-suite,
an operator name plus its parameter dictionary. -/
structure OperatorConfig where
  operatorName : String
  params : List (String × PyVal)
deriving DecidableEq

/-- The literal DEFAULT key of the operator mapping. -/
def defaultKey : String := "DEFAULT"

/-- The new_value parameter key of the replace operator. -/
def newValueKey : String := "new_value"

/-- The key parameter name, the KEY constant of decrypt.py. -/
def keyParamName : String := "key"

/-- Operator name of the hash operator. -/
def hashName : String := "hash"

/-- Operator name of the mask operator. -/
def maskName : String := "mask"

/-- Operator name of the redact operator. -/
def redactName : String := "redact"

/-- Operator name of the replace operator. -/
def replaceName : String := "replace"

/-- Operator name of the encrypt operator. -/
def encryptName : String := "encrypt"

/-- Operator name of the decrypt operator, from Decrypt.operator_name in
decrypt.py. -/
def decryptName : String := "decrypt"

/-- Operator kinds, from OperatorType as used by decrypt.py: anonymizers
versus the decryptor. -/
inductive OperatorType where
  | Anonymize : OperatorType
  | Decrypt : OperatorType
deriving DecidableEq

/-- Modelled from the spec: the fixed operator catalog (spec sections 2
and 4.4): six named operators, hash, mask, redact, replace, encrypt and
decrypt, where decrypt is the one operator of the decryptor kind
(decrypt.py, operator_type). -/
def operatorCatalog : List (String × OperatorType) :=
  [(hashName, OperatorType.Anonymize),
   (maskName, OperatorType.Anonymize),
   (redactName, OperatorType.Anonymize),
   (replaceName, OperatorType.Anonymize),
   (encryptName, OperatorType.Anonymize),
   (decryptName, OperatorType.Decrypt)]

/-- Modelled from the spec: the public anonymizer list of the engine (the
get_anonymizers call of the test-suite, line 20-25): the names of the
catalog entries of the anonymizer kind. -/
def getAnonymizers : List String :=
  (operatorCatalog.filter (fun p => p.2 == OperatorType.Anonymize)).map Prod.fst

/-- Modelled from the spec: operator-configuration resolution (spec
section 4.2): the entry keyed by the entity type, else the DEFAULT
entry, else the built-in fallback, a replace with no parameters whose
operate supplies the generic replacement value. -/
def getOperatorConfig (operators : List (String × OperatorConfig))
    (entityType : String) : OperatorConfig :=
  match List.lookup entityType operators with
  | some cfg => cfg
  | none =>
    match List.lookup defaultKey operators with
    | some cfg => cfg
    | none => ⟨replaceName, []⟩

/-- Look a string value up in a parameter dictionary. -/
def getStrParam (params : List (String × PyVal)) (key : String) : Option String :=
  match List.lookup key params with
  | some (PyVal.str s) => some s
  | _ => none

/-- Look an integer value up in a parameter dictionary. -/
def getIntParam (params : List (String × PyVal)) (key : String) : Option Int :=
  match List.lookup key params with
  | some (PyVal.int n) => some n
  | _ => none

/-- Character-wise upper-casing of a string. -/
def upperString (s : String) : String :=
  ⟨s.data.map Char.toUpper⟩

/-- Modelled from the spec: the replace operator (spec section 4.4):
return the configured new_value, or the generic replacement, the entity
type upper-cased in angle brackets, when no value was given. -/
def replaceOperate (entityType : String) (params : List (String × PyVal)) : String :=
  match getStrParam params newValueKey with
  | some v => v
  | none => "<" ++ upperString entityType ++ ">"

/-- Modelled from the spec: the hash operator (spec section 4.4) is a
deterministic one-way digest with a fixed default algorithm; the digest
itself is not part of the shipped sources and is modelled by a
deterministic digest of the slice. -/
def hashOperate (slice : String) : String :=
  toString slice.hash

/-- Modelled from the spec: the mask operator (spec section 4.4):
replace a configurable count of characters from the configurable side
with the masking character, preserving the rest. -/
def maskOperate (slice : String) (params : List (String × PyVal)) : String :=
  let n := ((getIntParam params ("chars_to_mask")).getD 0).toNat
  let c := (getStrParam params ("masking_char")).getD ("*")
  let k := min n slice.length
  match List.lookup ("from_end") params with
  | some (PyVal.bool true) => slice.take (slice.length - k) ++ String.join (List.replicate k c)
  | _ => String.join (List.replicate k c) ++ slice.drop k

/-- The UTF-8 encoding of one character, by the standard UTF-8 layout
(one byte below U+0080, two below U+0800, three below U+10000, four
above). -/
def charUtf8 (c : Char) : List UInt8 :=
  let n := c.toNat
  if n < 128 then [UInt8.ofNat n]
  else if n < 2048 then
    [UInt8.ofNat (192 ||| (n >>> 6)), UInt8.ofNat (128 ||| (n &&& 63))]
  else if n < 65536 then
    [UInt8.ofNat (224 ||| (n >>> 12)), UInt8.ofNat (128 ||| ((n >>> 6) &&& 63)),
     UInt8.ofNat (128 ||| (n &&& 63))]
  else
    [UInt8.ofNat (240 ||| (n >>> 18)), UInt8.ofNat (128 ||| ((n >>> 12) &&& 63)),
     UInt8.ofNat (128 ||| ((n >>> 6) &&& 63)), UInt8.ofNat (128 ||| (n &&& 63))]

/-- The UTF-8 byte encoding of a string, as key.encode of decrypt.py. -/
def strBytes (s : String) : List UInt8 :=
  (s.data.map charUtf8).flatten

/-- Modelled from the spec: AESCipher.is_valid_key_size (spec section
4.5): true exactly when the byte length is 16, 24 or 32. -/
def isValidKeySize (keyBytes : List UInt8) : Bool :=
  decide (keyBytes.length = 16 ∨ keyBytes.length = 24 ∨ keyBytes.length = 32)

/-- Modelled from the spec: the token produced by the symmetric cipher
(spec section 4.5).  The token is a black box to callers and records
everything needed to reverse the encryption except the key; the keyTag
field stands for the authentication check that makes decryption with a
different key fail deterministically, and the payload stands for the
reversibly encrypted plaintext. -/
structure AESToken where
  keyTag : List UInt8
  payload : String
deriving DecidableEq

/-- Modelled from the spec: AESCipher.encrypt (spec section 4.5). -/
def AESCipher.encrypt (key : List UInt8) (text : String) : AESToken :=
  ⟨key, text⟩

/-- The decryption failure message of the cipher. -/
def decryptFailMsg : String := "Invalid decryption key or corrupted token"

/-- Modelled from the spec: AESCipher.decrypt (spec section 4.5):
returns the plaintext when the supplied key matches the one the token
was produced with, and fails deterministically otherwise. -/
def AESCipher.decrypt (key : List UInt8) (tok : AESToken) : Except String String :=
  if tok.keyTag = key then Except.ok tok.payload else Except.error decryptFailMsg

/-- A black-box string rendering of a token, used when the encrypt
operator is invoked from the text pipeline. -/
def renderToken (t : AESToken) : String :=
  String.intercalate ("-") (t.keyTag.map toString) ++ ":" ++ t.payload

/-- The invalid-key-size message of decrypt.py, line 41. -/
def invalidKeyMsg : String :=
  "Invalid input, key must be of length 128, 192 or 256 bits"

/-- The missing-or-non-string key parameter failure, raised by
validate_parameter as called from decrypt.py line 38 (validate_parameter
itself is not among the shipped sources; any parameter error fits the
claims, so the message is nominal). -/
def expectedKeyMsg : String := "Expected parameter key"

/-- Decrypt.validate, from decrypt.py lines 28-42: the key parameter
must exist and be a string (validate_parameter with type str), and its
UTF-8 byte encoding must be of a valid AES key size, else an
invalid-parameter failure. -/
def decryptValidate (params : List (String × PyVal)) : Except String Unit :=
  match List.lookup keyParamName params with
  | some (PyVal.str k) =>
    if isValidKeySize (strBytes k) then Except.ok () else Except.error invalidKeyMsg
  | _ => Except.error expectedKeyMsg

/-- Decrypt.operate, from decrypt.py lines 15-26: encode the key
parameter to UTF-8 bytes and hand the token to AESCipher.decrypt. -/
def decryptOperate (text : AESToken) (params : List (String × PyVal)) :
    Except String String :=
  match getStrParam params keyParamName with
  | some k => AESCipher.decrypt (strBytes k) text
  | none => Except.error expectedKeyMsg

/-- Modelled from the spec: the encrypt operator (spec section 4.4):
validate that the key decodes to 16, 24 or 32 bytes, then produce the
cipher token for the slice. -/
def encryptApply (slice : String) (params : List (String × PyVal)) :
    Except String String :=
  match getStrParam params keyParamName with
  | some k =>
    if isValidKeySize (strBytes k) then
      Except.ok (renderToken (AESCipher.encrypt (strBytes k) slice))
    else Except.error invalidKeyMsg
  | none => Except.error expectedKeyMsg

/-- Modelled from the spec: the validation of the mask operator (spec section
4.4): the masking character must be a single character and the count a
non-negative integer. -/
def maskApply (slice : String) (params : List (String × PyVal)) :
    Except String String :=
  if ((getStrParam params ("masking_char")).getD ("*")).length = 1 ∧
      0 ≤ ((getIntParam params ("chars_to_mask")).getD 0) then
    Except.ok (maskOperate slice params)
  else Except.error ("Invalid mask parameters")

/-- A single quote character, used in engine error messages. -/
def singleQuote : String := String.singleton (Char.ofNat 39)

/-- The unknown-operator failure of the engine, with the message pinned
by the test-suite (tests/test_anonymizer_engine.py line 110): the
message names the unknown operator. -/
def invalidOperatorMsg (opName : String) : String :=
  "Invalid operator class " ++ singleQuote ++ opName ++ singleQuote ++ "."

/-- Modelled from the spec: operator dispatch for one surviving span
(spec section 4.2): a resolved operator name outside the anonymizer
catalog fails naming the unknown operator; otherwise the validation of the
operator runs and then its transform is applied to the slice. -/
def applyConfig (cfg : OperatorConfig) (entityType slice : String) :
    Except String String :=
  if cfg.operatorName ∈ getAnonymizers then
    if cfg.operatorName = replaceName then Except.ok (replaceOperate entityType cfg.params)
    else if cfg.operatorName = redactName then Except.ok ("")
    else if cfg.operatorName = hashName then Except.ok (hashOperate slice)
    else if cfg.operatorName = maskName then maskApply slice cfg.params
    else encryptApply slice cfg.params
  else Except.error (invalidOperatorMsg cfg.operatorName)

/-- One audit record of the engine result: operator name, entity type,
the original offsets and the replacement text, the fields asserted on
result.items by the test-suite. -/
structure AnonymizedEntry where
  anonymizer : String
  entityType : String
  start : Nat
  stop : Nat
  anonymizedText : String
deriving DecidableEq

/-- The engine result: the rewritten text plus the audit records. -/
structure EngineResult where
  text : String
  items : List AnonymizedEntry
deriving DecidableEq

/-- Insertion step for ordering spans by descending start. -/
def insertSpanDesc (a : Span) : List Span → List Span
  | [] => [a]
  | b :: l => if b.start ≤ a.start then a :: b :: l else b :: insertSpanDesc a l

/-- Modelled from the spec: the processing order of the text rewriter (spec
section 4.3): descending start, rightmost span first. -/
def sortByStartDesc (l : List Span) : List Span :=
  l.foldr insertSpanDesc []

/-- Insertion step for ordering audit records by ascending start. -/
def insertEntryAsc (a : AnonymizedEntry) : List AnonymizedEntry → List AnonymizedEntry
  | [] => [a]
  | b :: l => if a.start ≤ b.start then a :: b :: l else b :: insertEntryAsc a l

/-- Modelled from the spec: the final ordering of the audit records
(spec section 4.3): ascending original start. -/
def sortItemsAsc (l : List AnonymizedEntry) : List AnonymizedEntry :=
  l.foldr insertEntryAsc []

/-- Modelled from the spec: the rewriting pass (spec section 4.3):
process the surviving spans rightmost first, resolving the operator
configuration of each span, transforming the slice at the original
offsets of the working text and splicing the result back in; any
dispatch failure aborts the whole pass. -/
def rewriteAux (operators : List (String × OperatorConfig)) :
    List Span → String → Except String (String × List AnonymizedEntry)
  | [], t => Except.ok (t, [])
  | s :: rest, t =>
    match applyConfig (getOperatorConfig operators s.entityType) s.entityType
        ((t.take s.stop).drop s.start) with
    | Except.error e => Except.error e
    | Except.ok out =>
      match rewriteAux operators rest (t.take s.start ++ out ++ t.drop s.stop) with
      | Except.error e => Except.error e
      | Except.ok (ft, items) =>
        Except.ok (ft,
          ⟨(getOperatorConfig operators s.entityType).operatorName,
            s.entityType, s.start, s.stop, out⟩ :: items)

/-- The empty-input-text failure message, pinned by the test-suite
(tests/test_anonymizer_engine.py line 32). -/
def emptyTextMsg : String := "Invalid input, text can not be empty"

/-- The out-of-bounds analyzer-result message, pinned by the test-suite
(tests/test_anonymizer_engine.py lines 98-101). -/
def invalidResultMsg (s e len : Nat) : String :=
  "Invalid analyzer result, start: " ++ toString s ++ " and end: " ++ toString e ++
    ", while text length is only " ++ toString len ++ "."

/-- Modelled from the spec: span validation (spec section 6): each span
must satisfy start < end and end at most the text length, else a
parameter error citing the offending offsets and the text length. -/
def validateResults (len : Nat) : List Span → Except String Unit
  | [] => Except.ok ()
  | s :: rest =>
    if s.start < s.stop ∧ s.stop ≤ len then validateResults len rest
    else Except.error (invalidResultMsg s.start s.stop len)

/-- Modelled from the spec: the whole anonymize call (spec sections 2
and 6): reject empty text, validate every span, reconcile the spans,
rewrite right-to-left, and return the final text plus the audit records
sorted by ascending original start; every failure aborts the call with
no fragmentary output. -/
def anonymize (text : String) (spans : List Span)
    (operators : List (String × OperatorConfig)) : Except String EngineResult :=
  if text = "" then Except.error emptyTextMsg
  else
    match validateResults text.length spans with
    | Except.error e => Except.error e
    | Except.ok _ =>
      match rewriteAux operators (sortByStartDesc (reconcile spans)) text with
      | Except.error e => Except.error e
      | Except.ok (ft, items) => Except.ok ⟨ft, sortItemsAsc items⟩

/-- Unfolding of a successful conflict check. -/
theorem noConflictWith_iff (r : Span) (l : List Span) :
    noConflictWith r l = true ↔ ∀ o ∈ l, hasConflict r o = false := by
  simp [noConflictWith]

/-- Every reconciliation survivor comes from the pending list. -/
theorem mem_of_mem_removeConflictsAux {a : Span} :
    ∀ {pending kept : List Span}, a ∈ removeConflictsAux pending kept → a ∈ pending := by
  intro pending
  induction pending with
  | nil => intro kept h; simp [removeConflictsAux] at h
  | cons r rest ih =>
    intro kept h
    rw [removeConflictsAux] at h
    by_cases hc : noConflictWith r (rest ++ kept) = true
    · rw [if_pos hc] at h
      rcases List.mem_cons.mp h with h1 | h2
      · exact h1 ▸ List.mem_cons_self r rest
      · exact List.mem_cons_of_mem r (ih h2)
    · rw [if_neg hc] at h
      exact List.mem_cons_of_mem r (ih h)

/-- A reconciliation survivor never conflicts with an already-kept span. -/
theorem removeConflictsAux_no_conflict_kept :
    ∀ (pending kept : List Span) (a : Span), a ∈ removeConflictsAux pending kept →
      ∀ k ∈ kept, hasConflict a k = false := by
  intro pending
  induction pending with
  | nil => intro kept a h; simp [removeConflictsAux] at h
  | cons r rest ih =>
    intro kept a h k hk
    rw [removeConflictsAux] at h
    by_cases hc : noConflictWith r (rest ++ kept) = true
    · rw [if_pos hc] at h
      rcases List.mem_cons.mp h with h1 | h2
      · subst h1
        exact (noConflictWith_iff a (rest ++ kept)).mp hc k (List.mem_append_right rest hk)
      · exact ih (kept ++ [r]) a h2 k (List.mem_append_left [r] hk)
    · rw [if_neg hc] at h
      exact ih kept a h k hk

/-- Mutual absence of conflicts between two spans. -/
def conflictFree (a b : Span) : Prop :=
  hasConflict a b = false ∧ hasConflict b a = false

/-- The conflict-freedom relation is symmetric. -/
theorem conflictFree_symm : Symmetric conflictFree :=
  fun _ _ h => ⟨h.2, h.1⟩

/-- The reconciliation sweep output is pairwise conflict free, provided
no kept span conflicts with a pending one. -/
theorem removeConflictsAux_pairwise :
    ∀ (pending kept : List Span),
      (∀ k ∈ kept, ∀ p ∈ pending, hasConflict k p = false) →
      (removeConflictsAux pending kept).Pairwise conflictFree := by
  intro pending
  induction pending with
  | nil => intro kept _; simp [removeConflictsAux]
  | cons r rest ih =>
    intro kept hinv
    rw [removeConflictsAux]
    by_cases hc : noConflictWith r (rest ++ kept) = true
    · rw [if_pos hc]
      refine List.Pairwise.cons ?_ ?_
      · intro b hb
        refine ⟨(noConflictWith_iff r (rest ++ kept)).mp hc b
          (List.mem_append_left kept (mem_of_mem_removeConflictsAux hb)), ?_⟩
        exact removeConflictsAux_no_conflict_kept rest (kept ++ [r]) b hb r (by simp)
      · refine ih (kept ++ [r]) ?_
        intro k hk p hp
        rcases List.mem_append.mp hk with h1 | h2
        · exact hinv k h1 p (List.mem_cons_of_mem r hp)
        · have : k = r := by simpa using h2
          subst this
          exact (noConflictWith_iff k (rest ++ kept)).mp hc p (List.mem_append_left kept hp)
    · rw [if_neg hc]
      refine ih kept ?_
      intro k hk p hp
      exact hinv k hk p (List.mem_cons_of_mem r hp)

/-- Reconciliation output is pairwise conflict free. -/
theorem reconcile_pairwise (l : List Span) : (reconcile l).Pairwise conflictFree :=
  removeConflictsAux_pairwise (sortSpans l) [] (by simp)

/-- Prop form of the equal-indices test. -/
theorem equalIndices_iff (a b : Span) :
    equalIndices a b = true ↔ (a.start = b.start ∧ a.stop = b.stop) := by
  simp [equalIndices]

/-- Prop form of the containment test. -/
theorem containedIn_iff (a b : Span) :
    containedIn a b = true ↔ (b.start ≤ a.start ∧ a.stop ≤ b.stop) := by
  simp [containedIn]

/-- The equal-indices test is symmetric. -/
theorem equalIndices_comm (a b : Span) : equalIndices a b = equalIndices b a := by
  simp only [equalIndices, decide_eq_decide]
  constructor
  · rintro ⟨h1, h2⟩; exact ⟨h1.symm, h2.symm⟩
  · rintro ⟨h1, h2⟩; exact ⟨h1.symm, h2.symm⟩

/-- Reconciling a pending pair whose first element conflicts with the
second keeps only the second. -/
theorem removeConflictsAux_pair_conflict (a b : Span) (h : hasConflict a b = true) :
    removeConflictsAux [a, b] [] = [b] := by
  simp [removeConflictsAux, noConflictWith, h]

/-- Reconciling a conflict-free pending pair keeps both elements. -/
theorem removeConflictsAux_pair_free (a b : Span) (h1 : hasConflict a b = false)
    (h2 : hasConflict b a = false) : removeConflictsAux [a, b] [] = [a, b] := by
  simp [removeConflictsAux, noConflictWith, h1, h2]

/-- Reconciling a pending pair whose second element conflicts with the
first keeps only the first. -/
theorem removeConflictsAux_pair_second (a b : Span) (h1 : hasConflict a b = false)
    (h2 : hasConflict b a = true) : removeConflictsAux [a, b] [] = [a] := by
  simp [removeConflictsAux, noConflictWith, h1, h2]

/-- Sorting a two-element list orders it by spanLe. -/
theorem sortSpans_pair (a b : Span) :
    sortSpans [a, b] = if spanLe a b then [a, b] else [b, a] := by
  by_cases h : spanLe a b = true
  · simp [sortSpans, insertSpan, h]
  · simp [sortSpans, insertSpan, h]

/-- Whatever the sort order, a pair with a one-directional conflict
reconciles to the unconflicted element alone. -/
theorem reconcile_pair_drop (a b : Span) (hab : hasConflict a b = true)
    (hba : hasConflict b a = false) : reconcile [a, b] = [b] := by
  rw [reconcile, sortSpans_pair]
  by_cases h : spanLe a b = true
  · rw [if_pos h]
    exact removeConflictsAux_pair_conflict a b hab
  · rw [if_neg h]
    exact removeConflictsAux_pair_second b a hba hab

/-- A strictly contained span conflicts with its container. -/
theorem hasConflict_of_contained (a b : Span) (hc : containedIn a b = true)
    (hne : equalIndices a b = false) : hasConflict a b = true := by
  rw [hasConflict, if_neg (by simp [hne]), hc]

/-- A strict container does not conflict with the span it contains. -/
theorem not_hasConflict_of_strict_container (a b : Span) (hc : containedIn a b = true)
    (hne : equalIndices a b = false) : hasConflict b a = false := by
  have hba : equalIndices b a = false := (equalIndices_comm b a).trans hne
  rw [hasConflict, if_neg (by simp [hba])]
  rcases (containedIn_iff a b).mp hc with ⟨h1, h2⟩
  by_contra hbc
  have hcc := (containedIn_iff b a).mp (by revert hbc; cases containedIn b a <;> simp)
  have : equalIndices b a = true :=
    (equalIndices_iff b a).mpr ⟨le_antisymm h1 hcc.1, le_antisymm hcc.2 h2⟩
  rw [this] at hba
  exact Bool.true_eq_false.mp hba

/-- Claim C1.1 (helper): strict containment discards the contained span
regardless of score. -/
theorem reconcile_pair_strict (a b : Span) (hc : containedIn a b = true)
    (hne : equalIndices a b = false) : reconcile [a, b] = [b] :=
  reconcile_pair_drop a b (hasConflict_of_contained a b hc hne)
    (not_hasConflict_of_strict_container a b hc hne)

/-- Helper: among two equal-range spans, the strictly lower score is
discarded. -/
theorem reconcile_pair_equal (a b : Span) (heq : equalIndices a b = true)
    (hlt : a.score < b.score) : reconcile [a, b] = [b] := by
  refine reconcile_pair_drop a b ?_ ?_
  · rw [hasConflict, if_pos heq]
    exact decide_eq_true hlt.le
  · rw [hasConflict, if_pos ((equalIndices_comm b a).trans heq)]
    exact decide_eq_false (not_le.mpr hlt)

/-- The SSN candidate of the equal-range scenario (spec Scenario F). -/
def ssnEqualSpan : Span := ⟨48, 57, "SSN", score55⟩

/-- The PHONE_NUMBER candidate of the equal-range scenario. -/
def phoneEqualSpan : Span := ⟨48, 57, "PHONE_NUMBER", score95⟩

/-- The BLA candidate at range 23-35 of the reconciliation test. -/
def blaMiddleSpan : Span := ⟨23, 35, "BLA", score80⟩

/-- Claim C1, as stated, is false of the code: in the repository
reconciliation test, the FIRST_NAME span at range 24-28 with score 0.9
is strictly contained in the BLA span at range 18-32 with the strictly
lower score 0.8, yet FIRST_NAME is discarded and the container survives;
the reconciled set matches exactly the four survivors the test-suite
asserts (size four, each expected element present), and neither the
span nor the metadata of FIRST_NAME is among them. -/
theorem claim1_higher_score_contained_counterexample :
    firstNameSpan ∈ testResults ∧
    blaContainerSpan ∈ testResults ∧
    containedIn firstNameSpan blaContainerSpan = true ∧
    equalIndices firstNameSpan blaContainerSpan = false ∧
    blaContainerSpan.score < firstNameSpan.score ∧
    firstNameSpan ∉ reconcile testResults ∧
    blaContainerSpan ∈ reconcile testResults ∧
    (reconcile testResults).length = 4 ∧
    expectedTestMetadata.all (fun m => m ∈ (reconcile testResults).map toMetadata) ∧
    toMetadata firstNameSpan ∉ (reconcile testResults).map toMetadata := by
  decide

/-- Claim C1 (amended): for a pair (A, B) with the range of A contained in
the range of B, if the ranges differ then the contained span A is discarded
and B survives regardless of their scores; when the ranges are
identical, the element with the strictly lower score is discarded. -/
theorem claim1_containment_discard_rule :
    (∀ a b : Span, containedIn a b = true → equalIndices a b = false →
      reconcile [a, b] = [b]) ∧
    (∀ a b : Span, equalIndices a b = true → a.score < b.score →
      reconcile [a, b] = [b]) :=
  ⟨reconcile_pair_strict, reconcile_pair_equal⟩

/-- Witness for the amended claim C1 at the concrete spans of the
reconciliation test of the repository. -/
theorem claim1_containment_discard_rule_witness :
    reconcile [firstNameSpan, blaContainerSpan] = [blaContainerSpan] :=
  claim1_containment_discard_rule.1 firstNameSpan blaContainerSpan
    (by decide) (by decide)

/-- Claim C2: the reconciled output never retains a pair of distinct
spans one of which is contained in the other: for any input list and
any two distinct survivors a and b, a is not contained in b. -/
theorem claim2_no_contained_pair_survives :
    ∀ (l : List Span) (a b : Span), a ∈ reconcile l → b ∈ reconcile l →
      a ≠ b → containedIn a b = false := by
  intro l a b ha hb hne
  have hp := List.Pairwise.forall conflictFree_symm (reconcile_pairwise l) ha hb hne
  obtain ⟨h1, h2⟩ := hp
  by_cases heq : equalIndices a b = true
  · rw [hasConflict, if_pos heq] at h1
    rw [hasConflict, if_pos ((equalIndices_comm b a).trans heq)] at h2
    have hab := of_decide_eq_false h1
    have hba := of_decide_eq_false h2
    exact absurd (le_of_not_le hab) hba
  · rw [hasConflict, if_neg heq] at h1
    exact h1

/-- Witness for claim C2 at two concrete survivors of the repository
reconciliation test. -/
theorem claim2_no_contained_pair_survives_witness :
    containedIn blaContainerSpan blaMiddleSpan = false :=
  claim2_no_contained_pair_survives testResults blaContainerSpan blaMiddleSpan
    (by decide) (by decide) (by decide)

/-- Claim C3: two spans with identical start and end offsets reconcile
to exactly one survivor, the one with the strictly higher score. -/
theorem claim3_equal_range_higher_score_survives :
    ∀ a b : Span, a.start = b.start → a.stop = b.stop → a.score < b.score →
      reconcile [a, b] = [b] := by
  intro a b h1 h2 hlt
  exact reconcile_pair_equal a b ((equalIndices_iff a b).mpr ⟨h1, h2⟩) hlt

/-- Witness for claim C3: SSN at range 48-57 with score 0.55 and
PHONE_NUMBER at the same range with score 0.95 reconcile to
PHONE_NUMBER alone. -/
theorem claim3_equal_range_higher_score_survives_witness :
    reconcile [ssnEqualSpan, phoneEqualSpan] = [phoneEqualSpan] :=
  claim3_equal_range_higher_score_survives ssnEqualSpan phoneEqualSpan
    rfl rfl (by decide)

/-- Claim C4: two spans that overlap while neither range is a subset of
the other both survive reconciliation; mere overlap is not a removal
condition. -/
theorem claim4_overlap_both_survive :
    ∀ a b : Span, a.start < b.stop → b.start < a.stop →
      containedIn a b = false → containedIn b a = false →
      a ∈ reconcile [a, b] ∧ b ∈ reconcile [a, b] := by
  intro a b _ _ hab hba
  have heq : equalIndices a b = false := by
    cases he : equalIndices a b
    · rfl
    · rcases (equalIndices_iff a b).mp he with ⟨h1, h2⟩
      have : containedIn a b = true := (containedIn_iff a b).mpr ⟨h1.ge, h2.le⟩
      rw [this] at hab
      exact absurd hab (by simp)
  have hba2 : equalIndices b a = false := (equalIndices_comm b a).trans heq
  have hc1 : hasConflict a b = false := by rw [hasConflict, if_neg (by simp [heq]), hab]
  have hc2 : hasConflict b a = false := by rw [hasConflict, if_neg (by simp [hba2]), hba]
  rw [reconcile, sortSpans_pair]
  by_cases h : spanLe a b = true
  · rw [if_pos h, removeConflictsAux_pair_free a b hc1 hc2]
    exact ⟨List.mem_cons_self a [b], List.mem_cons_of_mem a (List.mem_cons_self b [])⟩
  · rw [if_neg h, removeConflictsAux_pair_free b a hc2 hc1]
    exact ⟨List.mem_cons_of_mem b (List.mem_cons_self a []), List.mem_cons_self b [a]⟩

/-- Witness for claim C4 at two overlapping, mutually non-contained BLA
spans of the reconciliation test of the repository. -/
theorem claim4_overlap_both_survive_witness :
    blaContainerSpan ∈ reconcile [blaContainerSpan, blaMiddleSpan] ∧
    blaMiddleSpan ∈ reconcile [blaContainerSpan, blaMiddleSpan] :=
  claim4_overlap_both_survive blaContainerSpan blaMiddleSpan
    (by decide) (by decide) (by decide) (by decide)

/-- The span of spec Scenario B, SSN at range 7-17 with score 0.8. -/
def scenarioSpan : Span := ⟨7, 17, "SSN", score80⟩

/-- Claim C5: operator resolution for a surviving span takes the entry
keyed by the entity type of the span when present, else the DEFAULT entry
when present, else a built-in fallback whose application replaces the
slice with the entity type upper-cased in angle brackets; with an empty
mapping the whole anonymize call therefore rewrites a detected span to
the angle-bracketed entity type, as in spec Scenario B. -/
theorem claim5_operator_resolution_order :
    (∀ (ops : List (String × OperatorConfig)) (et : String) (cfg : OperatorConfig),
      List.lookup et ops = some cfg → getOperatorConfig ops et = cfg) ∧
    (∀ (ops : List (String × OperatorConfig)) (et : String) (cfg : OperatorConfig),
      List.lookup et ops = none → List.lookup defaultKey ops = some cfg →
      getOperatorConfig ops et = cfg) ∧
    (∀ (ops : List (String × OperatorConfig)) (et : String),
      List.lookup et ops = none → List.lookup defaultKey ops = none →
      ∀ slice, applyConfig (getOperatorConfig ops et) et slice =
        Except.ok ("<" ++ upperString et ++ ">")) ∧
    (anonymize ("please REPLACE ME.") [scenarioSpan] []).map EngineResult.text =
      Except.ok ("please <SSN>.") := by
  refine ⟨?_, ?_, ?_, by rfl⟩
  · intro ops et cfg h
    rw [getOperatorConfig, h]
  · intro ops et cfg h1 h2
    rw [getOperatorConfig, h1, h2]
  · intro ops et h1 h2 slice
    rw [getOperatorConfig, h1, h2]
    rw [applyConfig, if_pos (by decide), if_pos rfl]
    rw [replaceOperate, getStrParam]
    rfl

/-- Witness for claim C5 at the concrete operator mappings of the
test-suite: an entity-specific entry wins, a DEFAULT entry backs it up,
and the empty mapping falls back to the generic replacement. -/
theorem claim5_operator_resolution_order_witness :
    getOperatorConfig [(("SSN" : String), ⟨redactName, []⟩),
        (defaultKey, ⟨replaceName, []⟩)] ("SSN") = ⟨redactName, []⟩ ∧
    getOperatorConfig [(defaultKey, ⟨replaceName,
        [(newValueKey, PyVal.str ("and thank you"))]⟩)] ("SSN") =
      ⟨replaceName, [(newValueKey, PyVal.str ("and thank you"))]⟩ ∧
    applyConfig (getOperatorConfig [] ("SSN")) ("SSN") ("REPLACE ME") =
      Except.ok ("<SSN>") :=
  ⟨claim5_operator_resolution_order.1 _ _ _ (by rfl),
   claim5_operator_resolution_order.2.1 _ _ _ (by rfl) (by rfl),
   claim5_operator_resolution_order.2.2.1 [] ("SSN") (by rfl) (by rfl) ("REPLACE ME")⟩

/-- A list of spans with an out-of-bounds element fails validation. -/
theorem validateResults_error_of_invalid :
    ∀ (len : Nat) (spans : List Span),
      (∃ s ∈ spans, ¬(s.start < s.stop ∧ s.stop ≤ len)) →
      ∃ e, validateResults len spans = Except.error e := by
  intro len spans
  induction spans with
  | nil => rintro ⟨s, hs, _⟩; simp at hs
  | cons t rest ih =>
    rintro ⟨s, hs, hbad⟩
    rw [validateResults]
    by_cases hv : t.start < t.stop ∧ t.stop ≤ len
    · rw [if_pos hv]
      refine ih ⟨s, ?_, hbad⟩
      rcases List.mem_cons.mp hs with h1 | h2
      · exact absurd (h1 ▸ hv) hbad
      · exact h2
    · rw [if_neg hv]
      exact ⟨_, rfl⟩

/-- Claim C6: an input span violating start < end and end within the
text length makes the anonymize call fail with no output; with a single
span the failure message cites the offending start, the offending end,
and the actual text length. -/
theorem claim6_invalid_offsets_fail :
    (∀ (text : String) (spans : List Span) (ops : List (String × OperatorConfig)),
      text ≠ "" → (∃ s ∈ spans, ¬(s.start < s.stop ∧ s.stop ≤ text.length)) →
      ∃ e, anonymize text spans ops = Except.error e) ∧
    (∀ (text : String) (s : Span) (ops : List (String × OperatorConfig)),
      text ≠ "" → ¬(s.start < s.stop ∧ s.stop ≤ text.length) →
      anonymize text [s] ops =
        Except.error (invalidResultMsg s.start s.stop text.length)) := by
  constructor
  · intro text spans ops htext hbad
    obtain ⟨e, he⟩ := validateResults_error_of_invalid text.length spans hbad
    rw [anonymize, if_neg htext, he]
    exact ⟨e, rfl⟩
  · intro text s ops htext hbad
    have hv : validateResults text.length [s] =
        Except.error (invalidResultMsg s.start s.stop text.length) := by
      rw [validateResults, if_neg hbad]
    rw [anonymize, if_neg htext, hv]

/-- Witness for claim C6 at the concrete case of the test-suite: the span at
offsets 12-16 over the 11-character text hello world fails citing 12,
16 and 11. -/
theorem claim6_invalid_offsets_fail_witness :
    anonymize ("hello world") [⟨12, 16, "type", score50⟩] [] =
      Except.error (invalidResultMsg 12 16 11) :=
  claim6_invalid_offsets_fail.2 ("hello world") ⟨12, 16, "type", score50⟩ []
    (by decide) (by decide)

/-- Reconciling a single span keeps it. -/
theorem reconcile_singleton (s : Span) : reconcile [s] = [s] := by
  simp [reconcile, sortSpans, insertSpan, removeConflictsAux, noConflictWith]

/-- Ordering a single span is trivial. -/
theorem sortByStartDesc_singleton (s : Span) : sortByStartDesc [s] = [s] := by
  simp [sortByStartDesc, insertSpanDesc]

/-- Claim C7: when the operator name resolved for a span is not in the
anonymizer catalog, the whole anonymize call fails with a parameter
error naming the unknown operator, producing no fragmentary output. -/
theorem claim7_unknown_operator_fails :
    ∀ (text : String) (s : Span) (ops : List (String × OperatorConfig)),
      text ≠ "" → s.start < s.stop → s.stop ≤ text.length →
      (getOperatorConfig ops s.entityType).operatorName ∉ getAnonymizers →
      anonymize text [s] ops =
        Except.error (invalidOperatorMsg (getOperatorConfig ops s.entityType).operatorName) := by
  intro text s ops htext h1 h2 hname
  have hv : validateResults text.length [s] = Except.ok () := by
    rw [validateResults, if_pos ⟨h1, h2⟩, validateResults]
  rw [anonymize, if_neg htext, hv, reconcile_singleton, sortByStartDesc_singleton,
    rewriteAux, applyConfig, if_neg hname]

/-- Witness for claim C7 at the concrete case of the test-suite: the unknown
operator fake makes the call fail naming fake. -/
theorem claim7_unknown_operator_fails_witness :
    anonymize ("this is my text") [⟨0, 4, "number", score0⟩]
        [(("number" : String), ⟨"fake", []⟩)] =
      Except.error ("Invalid operator class " ++ singleQuote ++ "fake" ++ singleQuote ++ ".") :=
  claim7_unknown_operator_fails ("this is my text") ⟨0, 4, "number", score0⟩
    [(("number" : String), ⟨"fake", []⟩)] (by decide) (by decide) (by decide) (by decide)

/-- Claim C8: Decrypt.validate succeeds exactly when the key parameter
is present as a string whose UTF-8 byte encoding is 16, 24 or 32 bytes
long; every other case is an invalid-parameter failure, and no other
condition is checked. -/
theorem claim8_decrypt_validate_iff :
    ∀ params : List (String × PyVal),
      decryptValidate params = Except.ok () ↔
        ∃ k : String, List.lookup keyParamName params = some (PyVal.str k) ∧
          ((strBytes k).length = 16 ∨ (strBytes k).length = 24 ∨
            (strBytes k).length = 32) := by
  intro params
  constructor
  · intro hok
    cases h : List.lookup keyParamName params with
    | none => rw [decryptValidate, h] at hok; exact absurd hok (by simp)
    | some v =>
      cases v with
      | str k =>
        simp only [decryptValidate, h] at hok
        by_cases hs : isValidKeySize (strBytes k) = true
        · refine ⟨k, rfl, ?_⟩
          rw [isValidKeySize] at hs
          exact of_decide_eq_true hs
        · rw [if_neg hs] at hok
          exact absurd hok (by simp)
      | int n => simp [decryptValidate, h] at hok
      | bool b => simp [decryptValidate, h] at hok
  · rintro ⟨k, hk, hsize⟩
    have hs : isValidKeySize (strBytes k) = true := by
      rw [isValidKeySize]; exact decide_eq_true hsize
    simp only [decryptValidate, hk, hs, if_true]

/-- Witness for claim C8 at a concrete sixteen-byte key, and at a
concrete bad key whose rejection follows from the only-if direction. -/
theorem claim8_decrypt_validate_iff_witness :
    decryptValidate [(keyParamName, PyVal.str ("1111111111111111"))] = Except.ok () ∧
    decryptValidate [(keyParamName, PyVal.str ("short"))] ≠ Except.ok () :=
  ⟨(claim8_decrypt_validate_iff [(keyParamName, PyVal.str ("1111111111111111"))]).mpr
      ⟨"1111111111111111", by rfl, Or.inl (by decide)⟩,
   fun h => by
      rcases (claim8_decrypt_validate_iff
          [(keyParamName, PyVal.str ("short"))]).mp h with ⟨k, hk, hsize⟩
      have : k = "short" := by
        have := hk
        simp [keyParamName, List.lookup] at this
        exact this.symm
      subst this
      revert hsize
      decide⟩

/-- Claim C9: for a key of valid size, decrypting the token produced by
encrypting a plaintext with that key returns the plaintext; decrypting
the token with any different valid-size key fails with a decryption
error rather than returning text; and Decrypt.operate restores the
plaintext when handed the encrypting key as its key parameter. -/
theorem claim9_cipher_round_trip :
    ∀ (key : List UInt8) (p : String), isValidKeySize key = true →
      (AESCipher.decrypt key (AESCipher.encrypt key p) = Except.ok p) ∧
      (∀ key2 : List UInt8, isValidKeySize key2 = true → key2 ≠ key →
        AESCipher.decrypt key2 (AESCipher.encrypt key p) =
          Except.error decryptFailMsg) ∧
      (∀ k : String, strBytes k = key →
        decryptOperate (AESCipher.encrypt key p) [(keyParamName, PyVal.str k)] =
          Except.ok p) := by
  intro key p _
  refine ⟨?_, ?_, ?_⟩
  · rw [AESCipher.decrypt, AESCipher.encrypt, if_pos rfl]
  · intro key2 _ hne
    rw [AESCipher.decrypt, AESCipher.encrypt]
    exact if_neg fun h => hne h.symm
  · intro k hk
    simp only [decryptOperate, getStrParam, List.lookup, beq_self_eq_true]
    rw [hk, AESCipher.decrypt, AESCipher.encrypt, if_pos rfl]

/-- Witness for claim C9 at a concrete sixteen-byte key, plaintext and
mismatched key. -/
theorem claim9_cipher_round_trip_witness :
    AESCipher.decrypt (strBytes ("1234567890123456"))
        (AESCipher.encrypt (strBytes ("1234567890123456")) ("hello world")) =
      Except.ok ("hello world") ∧
    AESCipher.decrypt (strBytes ("6543210987654321"))
        (AESCipher.encrypt (strBytes ("1234567890123456")) ("hello world")) =
      Except.error decryptFailMsg :=
  ⟨(claim9_cipher_round_trip (strBytes ("1234567890123456")) ("hello world")
      (by decide)).1,
   (claim9_cipher_round_trip (strBytes ("1234567890123456")) ("hello world")
      (by decide)).2.1 (strBytes ("6543210987654321")) (by decide) (by decide)⟩

/-- Claim C10: the public anonymizer list of the engine is exactly hash,
mask, redact, replace, encrypt in that order, while the decrypt
operator sits in the catalog under the name decrypt and is not in the
list. -/
theorem claim10_get_anonymizers_list :
    getAnonymizers = [("hash" : String), "mask", "redact", "replace", "encrypt"] ∧
    (decryptName, OperatorType.Decrypt) ∈ operatorCatalog ∧
    decryptName = "decrypt" ∧
    decryptName ∉ getAnonymizers := by
  refine ⟨by rfl, by decide, by rfl, by decide⟩
